import Mathlib

/-!
Shallow embedding of the ai-ocean-data-site acquisition-and-orchestration
pipeline (`pipeline/fetch_noaa.py`, `pipeline/run_pipeline.py`) and proofs of
its specified properties.

Modelling conventions:
* Calendar dates are abstract integer day numbers; `renderDate` abstracts
  `strftime("%Y%m%d")` and `renderYear` abstracts the `d.year` path segment.
  No claim inspects the rendered text.
* Measurement cells are `Option ℚ` (`none` models NaN/null); coordinates
  returned by `.reset_index()` are plain rationals.
* The filesystem is a state `FS` threaded through the downloads: an initial
  existence predicate plus the list of files written so far.
* The network is an oracle `String → HttpResult` giving per-URL either a
  response (status, body) or a transport exception (timeout, connection
  error, ...).
* Fallible Python code (`raise`, `KeyError` on column selection) is embedded
  with `Except String`.
-/

namespace OceanSite

/-- A nullable table cell (pandas NaN is `none`). -/
abbrev Cell := Option ℚ

/-- Outcome of an HTTP GET: a response with a status code and body, or a
transport-level exception (timeout, connection error, ...). -/
inductive HttpResult where
  | response (status : Nat) (body : String)
  | transportError
deriving DecidableEq

instance exceptDecEq {ε α : Type _} [DecidableEq ε] [DecidableEq α] :
    DecidableEq (Except ε α) := fun a b =>
  match a, b with
  | .error x, .error y =>
      if h : x = y then .isTrue (congrArg Except.error h)
      else .isFalse (fun hc => Except.noConfusion hc (fun hxy => h hxy))
  | .ok x, .ok y =>
      if h : x = y then .isTrue (congrArg Except.ok h)
      else .isFalse (fun hc => Except.noConfusion hc (fun hxy => h hxy))
  | .error _, .ok _ => .isFalse (fun hc => Except.noConfusion hc)
  | .ok _, .error _ => .isFalse (fun hc => Except.noConfusion hc)

/-- Filesystem state: the files present before the run plus those written
during it (with their contents). -/
structure FS where
  exists0 : String → Bool
  written : List (String × String)

/-- Model of `os.path.exists`: a path exists if it pre-existed or was written. -/
def FS.pathExists (fs : FS) (p : String) : Bool :=
  fs.exists0 p || fs.written.any (fun w => w.1 == p)

/-- Write a file (body `b` at path `p`). -/
def FS.write (fs : FS) (p b : String) : FS :=
  { fs with written := (p, b) :: fs.written }

/-- Result of one `_download` call, instrumented with whether the network was
touched (for the caching property). -/
structure DlOut where
  ok : Bool
  netCalled : Bool
  fs : FS

/-- Model of `_download(url, path)` from `pipeline/fetch_noaa.py`: return `True` at once
when the path exists; otherwise GET the url, write the body and return `True`
on status 200, return `False` on any other status, and return `False` on a
transport exception (the broad `except` clause). -/
def download (fs : FS) (net : String → HttpResult) (url path : String) : DlOut :=
  if fs.pathExists path then
    ⟨true, false, fs⟩
  else
    match net url with
    | .response s body =>
        if s == 200 then ⟨true, true, fs.write path body⟩
        else ⟨false, true, fs⟩
    | .transportError => ⟨false, true, fs⟩

/-- Model of `_candidate_dates(days_back)`: today, yesterday, ... most-recent first. -/
def candidateDates (today : Int) (daysBack : Nat := 3) : List Int :=
  (List.range daysBack).map (fun (i : Nat) => today - (i : Int))

/-- Abstraction of `d.strftime("%Y%m%d")`. -/
def renderDate (d : Int) : String := toString d

/-- Abstraction of the `{d.year}` path segment of the remote URL. -/
def renderYear (d : Int) : String := toString (d / 366)

/-- The rendered remote filename: `fname_tmpl.format(date=...)`, with the
template split around its single date placeholder. -/
def fnameOf (tmplPre tmplPost : String) (d : Int) : String :=
  tmplPre ++ renderDate d ++ tmplPost

/-- The remote URL `f"{base_url}/{d.year}/{fname}"`. -/
def urlOf (baseUrl tmplPre tmplPost : String) (d : Int) : String :=
  baseUrl ++ "/" ++ renderYear d ++ "/" ++ fnameOf tmplPre tmplPost d

/-- The deterministic local cache path `f"{prefix}_{YYYYMMDD}.nc"`. -/
def pathOf (pfx : String) (d : Int) : String :=
  pfx ++ "_" ++ renderDate d ++ ".nc"

/-- The probing loop of `_download_latest`, instrumented with the list of
dates actually probed.  Returns `(result, final filesystem, probed dates)`. -/
def dlLoop (net : String → HttpResult) (baseUrl tmplPre tmplPost pfx : String) :
    List Int → FS → Option (String × Int) × FS × List Int
  | [], fs => (none, fs, [])
  | d :: ds, fs =>
      let o := download fs net (urlOf baseUrl tmplPre tmplPost d) (pathOf pfx d)
      if o.ok then (some (pathOf pfx d, d), o.fs, [d])
      else
        let r := dlLoop net baseUrl tmplPre tmplPost pfx ds o.fs
        (r.1, r.2.1, d :: r.2.2)

/-- Model of `_download_latest(base_url, fname_tmpl, prefix)`: probe the candidate
dates most-recent first and return `(path, date)` on the first success, the
`(None, None)` sentinel (`none` here) when every date fails. -/
def downloadLatest (net : String → HttpResult) (baseUrl tmplPre tmplPost pfx : String)
    (today : Int) (fs : FS) : Option (String × Int) × FS × List Int :=
  dlLoop net baseUrl tmplPre tmplPost pfx (candidateDates today) fs

/-- Model of `_find_col(df, candidates)`: the first candidate present among the
columns, else `None`. -/
def findCol (cols : List String) : List String → Option String
  | [] => none
  | c :: cs => if c ∈ cols then some c else findCol cols cs

/-- One row of a flattened (`.to_dataframe().reset_index()`) dataset:
coordinate columns plus the named data variables. -/
structure RawRow where
  lat : ℚ
  lon : ℚ
  vals : String → Cell

/-- A flattened dataset: the column names and the rows. -/
structure RawTable where
  cols : List String
  rows : List RawRow

/-- One row of the table `fetch_noaa_crw` returns. -/
structure CrwRow where
  lat : ℚ
  lon : ℚ
  sst : Cell
  dhw : Cell
  date : Int
deriving DecidableEq

/-- One row of the table `fetch_noaa_ph` returns. -/
structure PhRow where
  lat : ℚ
  lon : ℚ
  ph : Cell
  date : Int
deriving DecidableEq

/-- The external world `fetch_noaa.py` interacts with: the clock, the
environment variables, the initial filesystem, the network, and the contents
`xr.open_dataset(path).to_dataframe().reset_index()` yields per path. -/
structure FetchEnv where
  today : Int
  getenv : String → Option String
  exists0 : String → Bool
  net : String → HttpResult
  openDs : String → RawTable

/-- Model of `SST_BASE`, that is `os.getenv("NOAA_SST_BASE_URL", default)`. -/
def sstBase (e : FetchEnv) : String :=
  (e.getenv "NOAA_SST_BASE_URL").getD
    "https://www.star.nesdis.noaa.gov/pub/socd/mecb/crw/data/5km/v3.1_op/nc/v1.0/daily/sst"

/-- Model of `DHW_BASE`, that is `os.getenv("NOAA_DHW_BASE_URL", default)`. -/
def dhwBase (e : FetchEnv) : String :=
  (e.getenv "NOAA_DHW_BASE_URL").getD
    "https://www.star.nesdis.noaa.gov/pub/socd/mecb/crw/data/5km/v3.1_op/nc/v1.0/daily/dhw"

/-- The candidate names for the SST variable, in priority order. -/
def sstCandidates : List String := ["sst", "analysed_sst", "sea_surface_temperature"]

/-- The candidate names for the DHW variable, in priority order. -/
def dhwCandidates : List String := ["dhw", "degree_heating_week"]

/-- The SST acquisition of `fetch_noaa_crw`: `_download_latest(SST_BASE,
"coraltemp_v3.1_{date}.nc", "NOAA_SST")` starting from the initial
filesystem. -/
def sstFetch (e : FetchEnv) : Option (String × Int) × FS × List Int :=
  downloadLatest e.net (sstBase e) "coraltemp_v3.1_" ".nc" "NOAA_SST" e.today
    ⟨e.exists0, []⟩

/-- The DHW acquisition of `fetch_noaa_crw`: `_download_latest(DHW_BASE,
"ct5km_dhw_v3.1_{date}.nc", "NOAA_DHW")` on the filesystem as the SST
acquisition left it. -/
def dhwFetch (e : FetchEnv) : Option (String × Int) × FS × List Int :=
  downloadLatest e.net (dhwBase e) "ct5km_dhw_v3.1_" ".nc" "NOAA_DHW" e.today
    (sstFetch e).2.1

/-- The fallback demo table of `fetch_noaa_crw` (its `dhw` values are 0.5,
0.6, 0.7 and its `date` column is `date.today()`). -/
def syntheticCrw (today : Int) : List CrwRow :=
  [ ⟨6.5, 92.5, some 28.2, some 0.5, today⟩,
    ⟨6.6, 92.6, some 28.4, some 0.6, today⟩,
    ⟨6.7, 92.7, some 28.3, some 0.7, today⟩ ]

/-- An intermediate row of `df_sst[["lat", "lon", sst_col]]`. -/
structure SstRow where
  lat : ℚ
  lon : ℚ
  sst : Cell
deriving DecidableEq

/-- Model of `df[["lat", "lon", col]]` on a flattened dataset: raises `KeyError`
(modelled as `Except.error`) when any requested column is absent. -/
def selectLatLon (t : RawTable) (col : String) : Except String (List (ℚ × ℚ × Cell)) :=
  if "lat" ∈ t.cols ∧ "lon" ∈ t.cols ∧ col ∈ t.cols then
    .ok (t.rows.map (fun r => (r.lat, r.lon, r.vals col)))
  else
    .error "KeyError"

/-- Model of `df_sst.merge(df_dhw, on=["lat", "lon"], how="left")` followed by the
schema of the returned table: each SST row is paired with every DHW row
sharing its coordinates, or kept once with a null `dhw` when no DHW row
matches. -/
def leftMergeDhw (sstRows : List (ℚ × ℚ × Cell)) (dhwRows : List (ℚ × ℚ × Cell))
    (d : Int) : List CrwRow :=
  sstRows.flatMap (fun l =>
    let ms := dhwRows.filter (fun r => r.1 == l.1 && r.2.1 == l.2.1)
    match ms with
    | [] => [⟨l.1, l.2.1, l.2.2, none, d⟩]
    | _ => ms.map (fun r => ⟨l.1, l.2.1, l.2.2, r.2.2, d⟩))

/-- The no-merge schema: `df_sst["dhw"] = 0.0` appended to every row. -/
def defaultDhw (sstRows : List (ℚ × ℚ × Cell)) (d : Int) : List CrwRow :=
  sstRows.map (fun l => ⟨l.1, l.2.1, l.2.2, some 0, d⟩)

/-- Model of `fetch_noaa_crw()` from `pipeline/fetch_noaa.py`.  Acquires SST then DHW
over the 3-day window; returns the synthetic demo table when SST was not
acquired; raises when the SST variable does not resolve; left-joins DHW when
its file is present and its variable resolves, and otherwise defaults `dhw`
to 0.0 (the `"dhw" not in df_sst.columns` branch). -/
def fetch_noaa_crw (e : FetchEnv) : Except String (List CrwRow) :=
  let s := sstFetch e
  let dh := dhwFetch e
  let fs2 := dh.2.1
  match s.1 with
  | none => .ok (syntheticCrw e.today)
  | some (sstPath, sstDate) =>
      if fs2.pathExists sstPath then
        let raw := e.openDs sstPath
        match findCol raw.cols sstCandidates with
        | none => .error "Could not find SST variable in NOAA SST dataset"
        | some sstCol =>
            match selectLatLon raw sstCol with
            | .error msg => .error msg
            | .ok dfSst =>
                -- df_sst["date"] = sst_date or date.today(); sst_date is a
                -- non-None date object here, so the date is sst_date.
                match dh.1 with
                | some (dhwPath, _) =>
                    if fs2.pathExists dhwPath then
                      let rawD := e.openDs dhwPath
                      match findCol rawD.cols dhwCandidates with
                      | some dhwCol =>
                          match selectLatLon rawD dhwCol with
                          | .error msg => .error msg
                          | .ok dfDhw => .ok (leftMergeDhw dfSst dfDhw sstDate)
                      | none => .ok (defaultDhw dfSst sstDate)
                    else .ok (defaultDhw dfSst sstDate)
                | none => .ok (defaultDhw dfSst sstDate)
      else .ok (syntheticCrw e.today)

/-- The fallback demo pH table of `fetch_noaa_ph`, tagged with today. -/
def syntheticPh (today : Int) : List PhRow :=
  [ ⟨6.5, 92.5, some 8.10, today⟩,
    ⟨6.6, 92.6, some 8.11, today⟩,
    ⟨6.7, 92.7, some 8.09, today⟩ ]

/-- The fixed local cache filename of the pH dataset. -/
def phPath : String := "NOAA_PH_FILE.nc"

/-- Model of `os.getenv("NOAA_PH_URL", "")`. -/
def phUrl (e : FetchEnv) : String := (e.getenv "NOAA_PH_URL").getD ""

/-- The filesystem after the optional pH download attempt: when the URL is
set and the file is absent, `requests.get` + `raise_for_status()` writes the
body for a non-error status (< 400) and any failure is swallowed by the
`except: pass`. -/
def phDownloadFs (e : FetchEnv) : FS :=
  let fs0 : FS := ⟨e.exists0, []⟩
  if phUrl e ≠ "" ∧ fs0.pathExists phPath = false then
    match e.net (phUrl e) with
    | .response s body => if s < 400 then fs0.write phPath body else fs0
    | .transportError => fs0
  else fs0

/-- Model of `fetch_noaa_ph()` from `pipeline/fetch_noaa.py`: optionally download the
fixed-name pH file, fall back to the synthetic table when it never
materializes, and otherwise keep exactly the `lat`, `lon`, `ph` columns
(raising `KeyError` when one is absent) tagged with today's date. -/
def fetch_noaa_ph (e : FetchEnv) : Except String (List PhRow) :=
  let fs1 := phDownloadFs e
  if fs1.pathExists phPath then
    let raw := e.openDs phPath
    if "lat" ∈ raw.cols ∧ "lon" ∈ raw.cols ∧ "ph" ∈ raw.cols then
      .ok (raw.rows.map (fun r => ⟨r.lat, r.lon, r.vals "ph", e.today⟩))
    else
      .error "KeyError"
  else
    .ok (syntheticPh e.today)

/-- Holds when `r.raise_for_status()` of the optional pH GET fails (an HTTP error
status of 400 or above, or a transport exception). -/
def phGetFails (e : FetchEnv) : Bool :=
  match e.net (phUrl e) with
  | .response s _ => decide (400 ≤ s)
  | .transportError => true

/-- Concrete network for the C4 witness: only the URL of date 9 (the second
candidate for today = 10) answers 200. -/
def netW4 : String → HttpResult := fun u =>
  if u == urlOf "B" "pre_" ".nc" 9 then .response 200 "x" else .transportError

/-- Environment for the C1 counterexample and witness: no file pre-exists,
every network request raises, the pH URL is unset. -/
def envAllFail : FetchEnv :=
  ⟨0, fun _ => none, fun _ => false, fun _ => .transportError, fun _ => ⟨[], []⟩⟩

/-- Environment for the C6 witness: every download succeeds, but the opened
datasets expose only a column named "foo". -/
def envDrift : FetchEnv :=
  ⟨0, fun _ => none, fun _ => false, fun _ => .response 200 "data",
    fun _ => ⟨["foo"], []⟩⟩

/-- Environment for the C9 witness: the pH file exists locally but its
flattened table has a drifted pH column name. -/
def envPhDrift : FetchEnv :=
  ⟨0, fun _ => none, fun p => p == phPath, fun _ => .transportError,
    fun _ => ⟨["lat", "lon", "pH_value"], [⟨1, 2, fun _ => some 8⟩]⟩⟩

/-- One row of the table after `spatial_merge` (step 5): the environmental
columns the orchestrator reads.  Reef attributes added by the spatial join
are irrelevant to the orchestrator and omitted. -/
structure MergedRow where
  date : Int
  lat : ℚ
  lon : ℚ
  sst : Cell
  dhw : Cell
  ph : Cell
deriving DecidableEq

/-- A `MergedRow` with the columns step 6 adds. -/
structure ScoredRow extends MergedRow where
  health_score : ℚ
  anomaly : Bool
  forecast_ph : Cell
deriving DecidableEq

/-- The opaque ML collaborators of `ml.model` (`M` is the model type
`train_lstm` produces); `train_lstm`/`forecast_lstm` may raise. -/
structure MLCollab (M : Type) where
  healthScore : MergedRow → ℚ
  detectAnomaly : List Cell → List Bool
  trainLstm : List Cell → Except String M
  forecastLstm : M → List Cell → Nat → Except String (List ℚ)

/-- Modelled from the library contract: `DataFrame.sample(n, random_state=42)`
with a fixed seed is a deterministic selection of `n` of the rows (without
replacement); the particular permutation the library uses is opaque, so the
selection is modelled as the first `n` rows. -/
def sampleRows (n : Nat) (rows : List α) : List α := rows.take n

/-- Model of `series.notna().sum()`: the number of non-null cells. -/
def countNotna (l : List Cell) : Nat := (l.filter (fun c => c.isSome)).length

/-- Model of `merged.loc[merged.index[-1], "forecast_ph"] = f`: set the forecast cell
of the positionally last row. -/
def setLastForecast : List ScoredRow → ℚ → List ScoredRow
  | [], _ => []
  | [r], f => [{ r with forecast_ph := some f }]
  | r :: r2 :: rs, f => r :: setLastForecast (r2 :: rs) f

/-- The module-level constant `FAST_MODE = True` of `run_pipeline.py`. -/
def FAST_MODE : Bool := true

/-- The module-level constant `MAX_ROWS_FAST = 5000`. -/
def MAX_ROWS_FAST : Nat := 5000

/-- The scored table before the forecasting branch: `health_score` per row,
`anomaly` from the vectorized detector over the `sst` column, and
`merged["forecast_ph"] = None` on every row. -/
def scoreRows (ml : MLCollab M) (merged : List MergedRow) : List ScoredRow :=
  List.zipWith
    (fun r i =>
      ⟨r, ml.healthScore r,
        (ml.detectAnomaly (merged.map (fun x => x.sst))).getD i false, none⟩)
    merged (List.range merged.length)

/-- Outcome of the orchestrator tail, instrumented with whether the
forecasting stage was attempted. -/
structure PipelineResult where
  rows : List ScoredRow
  forecastAttempted : Bool
deriving DecidableEq

/-- The optional fast-mode down-sampling of step 5b:
`if FAST_MODE and len(merged) > MAX_ROWS_FAST: merged = merged.sample(MAX_ROWS_FAST, random_state=42)`. -/
def sampleStage (fastMode : Bool) (maxRows : Nat) (l : List MergedRow) : List MergedRow :=
  if fastMode && decide (maxRows < l.length) then sampleRows maxRows l else l

/-- Steps 5b–6 of `run_daily_pipeline` (lines 67–87): the fast-mode
down-sampling cap, the scoring stage, and the guarded, failure-isolated
forecasting stage (`try`/`except` around `train_lstm`/`forecast_lstm` and the
write of `float(forecast[0])` into the last row; an error anywhere in the
`try` leaves the all-null `forecast_ph` column in place). -/
def pipelineTail (fastMode : Bool) (maxRows : Nat) (ml : MLCollab M)
    (merged0 : List MergedRow) : PipelineResult :=
  let merged := sampleStage fastMode maxRows merged0
  let scored := scoreRows ml merged
  let phSeries := merged.map (fun r => r.ph)
  let attempt := !fastMode && decide (30 ≤ countNotna phSeries)
  if attempt then
    match ml.trainLstm phSeries with
    | .error _ => ⟨scored, attempt⟩
    | .ok m =>
        match ml.forecastLstm m phSeries 7 with
        | .error _ => ⟨scored, attempt⟩
        | .ok [] => ⟨scored, attempt⟩
        | .ok (f :: _) => ⟨setLastForecast scored f, attempt⟩
  else ⟨scored, attempt⟩

/-- The opaque collaborators of steps 2–5 (`A` is the reef-atlas table
type). -/
structure Collab (A M : Type) where
  fetchAllen : List CrwRow → A
  cleanNoaa : List CrwRow → List CrwRow
  cleanAllen : A → A
  integratePh : List CrwRow → List PhRow → List MergedRow
  spatialMerge : List MergedRow → A → List MergedRow
  ml : MLCollab M

/-- Model of `run_daily_pipeline()` up to the record set handed to the persistence
stage: fetch NOAA CRW and pH, run the opaque clean/integrate/merge
collaborators, then the orchestrator tail with the module constants
`FAST_MODE` and `MAX_ROWS_FAST`.  An uncaught fetch error propagates. -/
def run_daily_pipeline (e : FetchEnv) (c : Collab A M) : Except String PipelineResult :=
  match fetch_noaa_crw e with
  | .error msg => .error msg
  | .ok noaa =>
      match fetch_noaa_ph e with
      | .error msg => .error msg
      | .ok ph =>
          let allen := c.fetchAllen noaa
          let noaa2 := c.cleanNoaa noaa
          let allen2 := c.cleanAllen allen
          let merged := c.integratePh noaa2 ph
          let merged2 := c.spatialMerge merged allen2
          .ok (pipelineTail FAST_MODE MAX_ROWS_FAST c.ml merged2)

/-- Collaborators for the C10 witness: identity cleaning, a trivial reef
atlas, pH integration that keeps the environmental rows with null pH. -/
def collabW : Collab Unit Unit where
  fetchAllen := fun _ => ()
  cleanNoaa := id
  cleanAllen := id
  integratePh := fun noaa _ =>
    noaa.map (fun r => ⟨r.date, r.lat, r.lon, r.sst, r.dhw, none⟩)
  spatialMerge := fun m _ => m
  ml := ⟨fun _ => 1, fun l => l.map (fun _ => false), fun _ => .ok (),
    fun _ _ _ => .ok []⟩

/-- The result of the C10 witness run. -/
def resW10 : PipelineResult :=
  match run_daily_pipeline envAllFail collabW with
  | .ok r => r
  | .error _ => ⟨[], true⟩

/-- ML collaborators for the C2 witness: training and forecasting succeed
with a constant 7-step forecast. -/
def mlW2 : MLCollab Unit where
  healthScore := fun _ => 1
  detectAnomaly := fun l => l.map (fun _ => false)
  trainLstm := fun _ => .ok ()
  forecastLstm := fun _ _ _ => .ok [8.05, 8.05, 8.05, 8.05, 8.05, 8.05, 8.05]

/-- A 30-row merged table with non-null pH everywhere (C2 witness). -/
def mergedW2 : List MergedRow := List.replicate 30 ⟨0, 1, 2, some 28, some 0, some 8⟩

/-- A 5001-row merged table (C3 witness). -/
def mergedW3 : List MergedRow := List.replicate 5001 ⟨0, 1, 2, some 28, some 0, none⟩

/-! ## Helper lemmas -/

lemma findCol_none_iff (cols cands : List String) :
    findCol cols cands = none ↔ ∀ c ∈ cands, c ∉ cols := by
  induction cands with
  | nil => simp [findCol]
  | cons c cs ih =>
      by_cases h : c ∈ cols
      · simp [findCol, h]
      · simp [findCol, h, ih]

lemma findCol_some_decomp (cols cands : List String) (c : String)
    (h : findCol cols cands = some c) :
    ∃ l₁ l₂, cands = l₁ ++ c :: l₂ ∧ c ∈ cols ∧ ∀ x ∈ l₁, x ∉ cols := by
  induction cands with
  | nil => simp [findCol] at h
  | cons a cs ih =>
      by_cases ha : a ∈ cols
      · simp [findCol, ha] at h
        exact ⟨[], cs, by simp [h], h ▸ ha, by simp⟩
      · simp [findCol, ha] at h
        obtain ⟨l₁, l₂, hcs, hc, hl₁⟩ := ih h
        exact ⟨a :: l₁, l₂, by simp [hcs], hc, by
          intro x hx
          rcases List.mem_cons.mp hx with rfl | hx
          · exact ha
          · exact hl₁ x hx⟩

lemma findCol_some_mem (cols cands : List String) (c : String)
    (h : findCol cols cands = some c) : c ∈ cols := by
  obtain ⟨_, _, _, hc, _⟩ := findCol_some_decomp cols cands c h
  exact hc

lemma download_fail_fs (fs : FS) (net : String → HttpResult) (url path : String)
    (h : (download fs net url path).ok = false) :
    (download fs net url path).fs = fs := by
  unfold download at *
  rcases hp : fs.pathExists path with _ | _ <;> simp [hp] at h ⊢
  rcases hn : net url with ⟨s, body⟩ | _ <;> simp [hn] at h ⊢
  by_cases hs : s = 200 <;> simp [hs] at h ⊢

lemma download_ok_exists (fs : FS) (net : String → HttpResult) (url path : String)
    (h : (download fs net url path).ok = true) :
    ((download fs net url path).fs).pathExists path = true := by
  unfold download at *
  rcases hp : fs.pathExists path with _ | _ <;> simp [hp] at h ⊢
  rcases hn : net url with ⟨s, body⟩ | _ <;> simp [hn] at h ⊢
  by_cases hs : s = 200 <;> simp [hs] at h ⊢
  simp [FS.write, FS.pathExists]

lemma download_mono (fs : FS) (net : String → HttpResult) (url path q : String)
    (h : fs.pathExists q = true) :
    ((download fs net url path).fs).pathExists q = true := by
  unfold download
  rcases hp : fs.pathExists path with _ | _ <;> simp [hp, h]
  rcases hn : net url with ⟨s, body⟩ | _ <;> simp [hn, h]
  by_cases hs : s = 200 <;> simp [hs, h]
  simp [FS.write, FS.pathExists] at h ⊢
  rcases h with h | ⟨x, hx⟩
  · exact Or.inl h
  · exact Or.inr (Or.inr ⟨x, hx⟩)

/-- The success of the single probe `_download_latest` makes for date `d`
against filesystem `fs`: failed probes leave the filesystem unchanged, so
during the prefix of failures this is the success criterion of the loop. -/
def probeOk (net : String → HttpResult) (baseUrl tmplPre tmplPost pfx : String)
    (fs : FS) (d : Int) : Bool :=
  (download fs net (urlOf baseUrl tmplPre tmplPost d) (pathOf pfx d)).ok

lemma dlLoop_all_fail (net : String → HttpResult) (b t1 t2 pfx : String)
    (ds : List Int) (fs : FS)
    (h : ∀ d ∈ ds, probeOk net b t1 t2 pfx fs d = false) :
    dlLoop net b t1 t2 pfx ds fs = (none, fs, ds) := by
  induction ds with
  | nil => simp [dlLoop]
  | cons d ds ih =>
      have hd : (download fs net (urlOf b t1 t2 d) (pathOf pfx d)).ok = false :=
        h d (List.mem_cons_self d ds)
      have hfs := download_fail_fs fs net (urlOf b t1 t2 d) (pathOf pfx d) hd
      simp only [dlLoop, hd, hfs, Bool.false_eq_true, if_false]
      rw [ih (fun x hx => h x (List.mem_cons_of_mem d hx))]

lemma dlLoop_success_at (net : String → HttpResult) (b t1 t2 pfx : String)
    (ds : List Int) (fs : FS) (k : Nat) (hk : k < ds.length)
    (hsucc : probeOk net b t1 t2 pfx fs (ds.get ⟨k, hk⟩) = true)
    (hfail : ∀ j (hj : j < k), probeOk net b t1 t2 pfx fs (ds.get ⟨j, hj.trans hk⟩) = false) :
    (dlLoop net b t1 t2 pfx ds fs).1
      = some (pathOf pfx (ds.get ⟨k, hk⟩), ds.get ⟨k, hk⟩) := by
  induction ds generalizing k with
  | nil => simp at hk
  | cons d ds ih =>
      cases k with
      | zero =>
          simp only [List.get] at hsucc ⊢
          simp only [probeOk] at hsucc
          simp [dlLoop, hsucc]
      | succ k =>
          have h0 : probeOk net b t1 t2 pfx fs d = false := hfail 0 (Nat.zero_lt_succ k)
          have hd : (download fs net (urlOf b t1 t2 d) (pathOf pfx d)).ok = false := h0
          have hfs := download_fail_fs fs net (urlOf b t1 t2 d) (pathOf pfx d) hd
          simp only [dlLoop, hd, hfs, Bool.false_eq_true, if_false]
          simp only [List.get] at hsucc ⊢
          exact ih k (Nat.lt_of_succ_lt_succ hk) hsucc
            (fun j hj => hfail (j + 1) (Nat.succ_lt_succ hj))

lemma dlLoop_trace_sublist (net : String → HttpResult) (b t1 t2 pfx : String)
    (ds : List Int) (fs : FS) :
    ((dlLoop net b t1 t2 pfx ds fs).2.2).Sublist ds := by
  induction ds generalizing fs with
  | nil => simp [dlLoop]
  | cons d ds ih =>
      by_cases h : (download fs net (urlOf b t1 t2 d) (pathOf pfx d)).ok = true
      · simp [dlLoop, h]
      · simp only [Bool.not_eq_true] at h
        simp only [dlLoop, h, Bool.false_eq_true, if_false]
        exact List.Sublist.cons₂ d
          (ih (download fs net (urlOf b t1 t2 d) (pathOf pfx d)).fs)

lemma candidateDates_nodup (today : Int) (n : Nat) : (candidateDates today n).Nodup := by
  unfold candidateDates
  exact List.Nodup.map (f := fun i : ℕ => today - (i : ℤ))
    (fun a b hab => by dsimp at hab; omega) (List.nodup_range n)

/-! ## C4: the dated resource locator -/

/-- C4: `_download_latest` probes the window most-recent-first; it returns
the local path and date of the k-th candidate exactly when the k-th is the
first to succeed, returns the `(None, None)` sentinel when every candidate
fails, and the probed dates are a deduplicated subsequence of the window
(no date outside the window, no date probed twice). -/
theorem downloadLatest_spec (net : String → HttpResult) (b t1 t2 pfx : String)
    (today : Int) (fs : FS) :
    ((∀ d ∈ candidateDates today, probeOk net b t1 t2 pfx fs d = false) →
        (downloadLatest net b t1 t2 pfx today fs).1 = none)
    ∧ (∀ k (hk : k < (candidateDates today).length),
        probeOk net b t1 t2 pfx fs ((candidateDates today).get ⟨k, hk⟩) = true →
        (∀ j (hj : j < k),
          probeOk net b t1 t2 pfx fs ((candidateDates today).get ⟨j, hj.trans hk⟩) = false) →
        (downloadLatest net b t1 t2 pfx today fs).1
          = some (pathOf pfx ((candidateDates today).get ⟨k, hk⟩),
                  (candidateDates today).get ⟨k, hk⟩))
    ∧ ((downloadLatest net b t1 t2 pfx today fs).2.2).Sublist (candidateDates today)
    ∧ ((downloadLatest net b t1 t2 pfx today fs).2.2).Nodup := by
  refine ⟨?_, ?_, ?_, ?_⟩
  · intro h
    unfold downloadLatest
    rw [dlLoop_all_fail net b t1 t2 pfx (candidateDates today) fs h]
  · intro k hk hsucc hfail
    exact dlLoop_success_at net b t1 t2 pfx (candidateDates today) fs k hk hsucc hfail
  · exact dlLoop_trace_sublist net b t1 t2 pfx (candidateDates today) fs
  · exact List.Nodup.sublist
      (dlLoop_trace_sublist net b t1 t2 pfx (candidateDates today) fs)
      (candidateDates_nodup today 3)

/-- Witness for C4: with today = 10 and only the second candidate date (9)
available, the locator returns the path and date of the second candidate. -/
theorem downloadLatest_spec_witness :
    (downloadLatest netW4 "B" "pre_" ".nc" "P" 10 ⟨fun _ => false, []⟩).1
      = some (pathOf "P" ((candidateDates 10).get ⟨1, by decide⟩),
              (candidateDates 10).get ⟨1, by decide⟩) :=
  (downloadLatest_spec netW4 "B" "pre_" ".nc" "P" 10 ⟨fun _ => false, []⟩).2.1
    1 (by decide) (by decide)
    (fun j hj => by
      have hj0 : j = 0 := Nat.lt_one_iff.mp hj
      subst hj0
      show probeOk netW4 "B" "pre_" ".nc" "P" ⟨fun _ => false, []⟩ 10 = false
      decide)

/-- C8: `_find_col` returns the first candidate (in list order) present in
the column set, `none` when no candidate is present, and on columns
`{"sea_surface_temperature", "lat", "lon"}` with the SST candidate list it
returns `"sea_surface_temperature"`.  It is a total function by
construction. -/
theorem findCol_spec (cols cands : List String) :
    (∀ c, findCol cols cands = some c →
        ∃ l₁ l₂, cands = l₁ ++ c :: l₂ ∧ c ∈ cols ∧ ∀ x ∈ l₁, x ∉ cols)
    ∧ (findCol cols cands = none ↔ ∀ c ∈ cands, c ∉ cols)
    ∧ findCol ["sea_surface_temperature", "lat", "lon"] sstCandidates
        = some "sea_surface_temperature" := by
  refine ⟨fun c h => findCol_some_decomp cols cands c h, findCol_none_iff cols cands, ?_⟩
  decide

/-- Witness for C8 at the spec's concrete input. -/
theorem findCol_spec_witness :
    ∃ l₁ l₂, sstCandidates = l₁ ++ "sea_surface_temperature" :: l₂
      ∧ "sea_surface_temperature" ∈ ["sea_surface_temperature", "lat", "lon"]
      ∧ ∀ x ∈ l₁, x ∉ ["sea_surface_temperature", "lat", "lon"] :=
  (findCol_spec ["sea_surface_temperature", "lat", "lon"] sstCandidates).1
    "sea_surface_temperature" (by decide)

/-! ## C5: the caching fetcher -/

/-- C5: `_download` returns `True` with no network call when the path already
exists; otherwise it calls the network and returns `True` writing the body
exactly on status 200, and returns `False` writing nothing on any other
status or on a transport exception.  It is total (no exception escapes). -/
theorem download_spec (fs : FS) (net : String → HttpResult) (url path : String) :
    (fs.pathExists path = true → download fs net url path = ⟨true, false, fs⟩)
    ∧ (fs.pathExists path = false →
        (∀ body, net url = .response 200 body →
            download fs net url path = ⟨true, true, fs.write path body⟩)
        ∧ (∀ s body, net url = .response s body → s ≠ 200 →
            download fs net url path = ⟨false, true, fs⟩)
        ∧ (net url = .transportError →
            download fs net url path = ⟨false, true, fs⟩)) := by
  constructor
  · intro h; simp [download, h]
  · intro h
    refine ⟨?_, ?_, ?_⟩
    · intro body hn; simp [download, h, hn]
    · intro s body hn hs; simp [download, h, hn, hs]
    · intro hn; simp [download, h, hn]

/-- Witness for C5: a cached path short-circuits the network. -/
theorem download_spec_witness :
    download ⟨fun p => p == "cached.nc", []⟩ (fun _ => .transportError)
        "http://u" "cached.nc"
      = ⟨true, false, ⟨fun p => p == "cached.nc", []⟩⟩ :=
  (download_spec ⟨fun p => p == "cached.nc", []⟩ (fun _ => .transportError)
    "http://u" "cached.nc").1 (by decide)

/-! ## Path lemmas for `fetch_noaa_crw` -/

lemma dlLoop_mono (net : String → HttpResult) (b t1 t2 pfx : String)
    (ds : List Int) (fs : FS) (q : String) (h : fs.pathExists q = true) :
    ((dlLoop net b t1 t2 pfx ds fs).2.1).pathExists q = true := by
  induction ds generalizing fs with
  | nil => simpa [dlLoop] using h
  | cons d ds ih =>
      by_cases hd : (download fs net (urlOf b t1 t2 d) (pathOf pfx d)).ok = true
      · simp only [dlLoop, hd, if_true]
        exact download_mono fs net (urlOf b t1 t2 d) (pathOf pfx d) q h
      · simp only [Bool.not_eq_true] at hd
        simp only [dlLoop, hd, Bool.false_eq_true, if_false]
        exact ih _ (download_mono fs net (urlOf b t1 t2 d) (pathOf pfx d) q h)

lemma dlLoop_success_exists (net : String → HttpResult) (b t1 t2 pfx : String)
    (ds : List Int) (fs : FS) (p : String) (d : Int)
    (h : (dlLoop net b t1 t2 pfx ds fs).1 = some (p, d)) :
    ((dlLoop net b t1 t2 pfx ds fs).2.1).pathExists p = true := by
  induction ds generalizing fs with
  | nil => simp [dlLoop] at h
  | cons a ds ih =>
      by_cases ha : (download fs net (urlOf b t1 t2 a) (pathOf pfx a)).ok = true
      · simp only [dlLoop, ha, if_true] at h ⊢
        have : p = pathOf pfx a := by
          simpa using congrArg (fun o => (o.map Prod.fst).getD "") h.symm
        subst this
        exact download_ok_exists fs net (urlOf b t1 t2 a) (pathOf pfx a) ha
      · simp only [Bool.not_eq_true] at ha
        simp only [dlLoop, ha, Bool.false_eq_true, if_false] at h ⊢
        exact ih _ h

lemma sstFetch_exists (e : FetchEnv) (p : String) (d : Int)
    (h : (sstFetch e).1 = some (p, d)) :
    ((dhwFetch e).2.1).pathExists p = true := by
  unfold dhwFetch downloadLatest
  unfold sstFetch downloadLatest at h
  exact dlLoop_mono _ _ _ _ _ _ _ _
    (dlLoop_success_exists _ _ _ _ _ _ _ _ _ h)

lemma dhwFetch_exists (e : FetchEnv) (p : String) (d : Int)
    (h : (dhwFetch e).1 = some (p, d)) :
    ((dhwFetch e).2.1).pathExists p = true := by
  unfold dhwFetch downloadLatest at h ⊢
  exact dlLoop_success_exists _ _ _ _ _ _ _ _ _ h

lemma fetch_crw_sst_unresolved (e : FetchEnv) (p : String) (d : Int)
    (hs : (sstFetch e).1 = some (p, d))
    (hc : findCol (e.openDs p).cols sstCandidates = none) :
    fetch_noaa_crw e = .error "Could not find SST variable in NOAA SST dataset" := by
  have hex : ((dhwFetch e).2.1).pathExists p = true := sstFetch_exists e p d hs
  simp [fetch_noaa_crw, hs, hex, hc]

lemma fetch_crw_dhw_default (e : FetchEnv) (p : String) (d : Int) (c : String)
    (hs : (sstFetch e).1 = some (p, d))
    (hc : findCol (e.openDs p).cols sstCandidates = some c)
    (hlat : "lat" ∈ (e.openDs p).cols) (hlon : "lon" ∈ (e.openDs p).cols)
    (hdhw : (dhwFetch e).1 = none
      ∨ ∃ q d2, (dhwFetch e).1 = some (q, d2)
          ∧ findCol (e.openDs q).cols dhwCandidates = none) :
    fetch_noaa_crw e
      = .ok (defaultDhw ((e.openDs p).rows.map (fun r => (r.lat, r.lon, r.vals c))) d) := by
  have hex : ((dhwFetch e).2.1).pathExists p = true := sstFetch_exists e p d hs
  have hcm : c ∈ (e.openDs p).cols := findCol_some_mem _ _ _ hc
  have hsel : selectLatLon (e.openDs p) c
      = .ok ((e.openDs p).rows.map (fun r => (r.lat, r.lon, r.vals c))) := by
    simp [selectLatLon, hlat, hlon, hcm]
  rcases hdhw with hd | ⟨q, d2, hd, hq⟩
  · simp [fetch_noaa_crw, hs, hex, hc, hsel, hd]
  · have hexq : ((dhwFetch e).2.1).pathExists q = true := dhwFetch_exists e q d2 hd
    simp [fetch_noaa_crw, hs, hex, hc, hsel, hd, hexq, hq]

lemma defaultDhw_all_zero (rows : List (ℚ × ℚ × Cell)) (d : Int) :
    ∀ r ∈ defaultDhw rows d, r.dhw = some 0 := by
  intro r hr
  simp only [defaultDhw, List.mem_map] at hr
  obtain ⟨l, _, rfl⟩ := hr
  rfl

/-- C6: when the SST dataset is obtained but no SST candidate name is among
its columns, `fetch_noaa_crw` raises the explicit "variable not found"
error; when the DHW dataset is obtained but its variable does not resolve,
no error is raised and every returned row has dhw defaulted to 0.0. -/
theorem crw_schema_drift_spec (e : FetchEnv) :
    (∀ p d, (sstFetch e).1 = some (p, d) →
        findCol (e.openDs p).cols sstCandidates = none →
        fetch_noaa_crw e = .error "Could not find SST variable in NOAA SST dataset")
    ∧ (∀ p d c q d2, (sstFetch e).1 = some (p, d) →
        findCol (e.openDs p).cols sstCandidates = some c →
        "lat" ∈ (e.openDs p).cols → "lon" ∈ (e.openDs p).cols →
        (dhwFetch e).1 = some (q, d2) →
        findCol (e.openDs q).cols dhwCandidates = none →
        ∃ rows, fetch_noaa_crw e = .ok rows ∧ ∀ r ∈ rows, r.dhw = some 0) := by
  constructor
  · intro p d hs hc
    exact fetch_crw_sst_unresolved e p d hs hc
  · intro p d c q d2 hs hc hlat hlon hd hq
    exact ⟨_, fetch_crw_dhw_default e p d c hs hc hlat hlon
      (Or.inr ⟨q, d2, hd, hq⟩), defaultDhw_all_zero _ _⟩

/-- Witness for C6: all downloads succeed but the opened dataset has only a
"foo" column, so the run aborts with the explicit error. -/
theorem crw_schema_drift_spec_witness :
    fetch_noaa_crw envDrift = .error "Could not find SST variable in NOAA SST dataset" :=
  (crw_schema_drift_spec envDrift).1 (pathOf "NOAA_SST" 0) 0 (by decide) (by decide)

/-! ## C7: the pH fallback -/

/-- C7: `fetch_noaa_ph` returns the 3-point synthetic table tagged with
today's date whenever the pH file is absent and cannot be obtained (URL
unset, or the GET fails in any way — failures are swallowed); when the file
is present it returns exactly the lat/lon/ph columns of the flattened
dataset, with every row's date set to today's date. -/
theorem ph_fallback_spec (e : FetchEnv) :
    (e.exists0 phPath = false →
        (phUrl e = "" ∨ phGetFails e = true) →
        fetch_noaa_ph e = .ok (syntheticPh e.today))
    ∧ (e.exists0 phPath = true →
        "lat" ∈ (e.openDs phPath).cols → "lon" ∈ (e.openDs phPath).cols →
        "ph" ∈ (e.openDs phPath).cols →
        fetch_noaa_ph e
          = .ok ((e.openDs phPath).rows.map
              (fun r => ⟨r.lat, r.lon, r.vals "ph", e.today⟩))) := by
  have hfs : ∀ b : Bool, e.exists0 phPath = b →
      (FS.pathExists ⟨e.exists0, []⟩ phPath) = b := by
    intro b hb; simp [FS.pathExists, hb]
  constructor
  · intro hex hfail
    have hfs0 := hfs false hex
    rcases hfail with hurl | hnet
    · simp [fetch_noaa_ph, phDownloadFs, hurl, hfs0]
    · by_cases hurl : phUrl e = ""
      · simp [fetch_noaa_ph, phDownloadFs, hurl, hfs0]
      · rcases hn : e.net (phUrl e) with ⟨s, b⟩ | _
        · have hs : ¬ (s < 400) := by
            simp only [phGetFails, hn, decide_eq_true_eq] at hnet
            omega
          simp [fetch_noaa_ph, phDownloadFs, hurl, hfs0, hn, hs]
        · simp [fetch_noaa_ph, phDownloadFs, hurl, hfs0, hn]
  · intro hex hlat hlon hph
    have hfs1 := hfs true hex
    simp [fetch_noaa_ph, phDownloadFs, hfs1, hlat, hlon, hph]

/-- Witness for C7: file absent and pH URL unset yields the synthetic
table. -/
theorem ph_fallback_spec_witness :
    fetch_noaa_ph envAllFail = .ok (syntheticPh envAllFail.today) :=
  (ph_fallback_spec envAllFail).1 (by decide) (Or.inl (by decide))

/-! ## C9: a drifted pH file is fatal -/

/-- C9: when the pH file exists locally but its flattened table lacks a
column named exactly "ph" (or "lat" or "lon"), `fetch_noaa_ph` raises
(`KeyError`) instead of falling back to the synthetic table. -/
theorem ph_schema_drift_spec (e : FetchEnv)
    (hex : e.exists0 phPath = true)
    (hcols : "ph" ∉ (e.openDs phPath).cols ∨ "lat" ∉ (e.openDs phPath).cols
      ∨ "lon" ∉ (e.openDs phPath).cols) :
    fetch_noaa_ph e = .error "KeyError" := by
  have hfs1 : (FS.pathExists ⟨e.exists0, []⟩ phPath) = true := by
    simp [FS.pathExists, hex]
  have hc : ¬ ("lat" ∈ (e.openDs phPath).cols ∧ "lon" ∈ (e.openDs phPath).cols
      ∧ "ph" ∈ (e.openDs phPath).cols) := by tauto
  simp [fetch_noaa_ph, phDownloadFs, hfs1, hc]

/-- Witness for C9: the pH file exists but its pH column is named
"pH_value", so the fetch raises. -/
theorem ph_schema_drift_spec_witness :
    fetch_noaa_ph envPhDrift = .error "KeyError" :=
  ph_schema_drift_spec envPhDrift (by decide) (Or.inl (by decide))

/-! ## Pipeline lemmas -/

lemma zipWith_proj_eq {α β γ : Type _} (f : α → β → γ) (g : γ → α)
    (hfg : ∀ a b, g (f a b) = a) :
    ∀ (l : List α) (ns : List β), l.length ≤ ns.length →
      (List.zipWith f l ns).map g = l := by
  intro l
  induction l with
  | nil => intro ns _; simp
  | cons a l ih =>
      intro ns hn
      cases ns with
      | nil => simp at hn
      | cons n ns =>
          simp only [List.zipWith_cons_cons, List.map_cons, hfg]
          rw [ih ns (by simpa using hn)]

lemma zipWith_const_map {α β γ δ : Type _} (f : α → β → γ) (g : γ → δ) (c : δ)
    (hfg : ∀ a b, g (f a b) = c) :
    ∀ (l : List α) (ns : List β), l.length ≤ ns.length →
      (List.zipWith f l ns).map g = List.replicate l.length c := by
  intro l
  induction l with
  | nil => intro ns _; simp
  | cons a l ih =>
      intro ns hn
      cases ns with
      | nil => simp at hn
      | cons n ns =>
          simp only [List.zipWith_cons_cons, List.map_cons, hfg, List.length_cons,
            List.replicate_succ]
          rw [ih ns (by simpa using hn)]

lemma scoreRows_length (ml : MLCollab M) (l : List MergedRow) :
    (scoreRows ml l).length = l.length := by
  simp [scoreRows]

lemma scoreRows_toMerged (ml : MLCollab M) (l : List MergedRow) :
    (scoreRows ml l).map ScoredRow.toMergedRow = l := by
  unfold scoreRows
  exact zipWith_proj_eq _ _ (fun a b => rfl) l (List.range l.length) (by simp)

lemma scoreRows_forecast_none (ml : MLCollab M) (l : List MergedRow) :
    (scoreRows ml l).map ScoredRow.forecast_ph = List.replicate l.length none := by
  unfold scoreRows
  exact zipWith_const_map
    (fun r i =>
      (⟨r, ml.healthScore r,
        (ml.detectAnomaly (l.map (fun x => x.sst))).getD i false, none⟩ : ScoredRow))
    ScoredRow.forecast_ph none (fun a b => rfl) l (List.range l.length) (by simp)

lemma setLastForecast_map : ∀ (l : List ScoredRow) (f : ℚ), l ≠ [] →
    (setLastForecast l f).map ScoredRow.forecast_ph
      = (l.map ScoredRow.forecast_ph).dropLast ++ [some f]
  | [], f, h => absurd rfl h
  | [r], f, _ => by simp [setLastForecast]
  | r :: r2 :: rs, f, _ => by
      have ih := setLastForecast_map (r2 :: rs) f (by simp)
      simp only [setLastForecast, List.map_cons] at ih ⊢
      rw [ih]
      rfl

lemma dropLast_replicate {α : Type _} (n : Nat) (c : α) :
    (List.replicate (n + 1) c).dropLast = List.replicate n c := by
  rw [List.replicate_succ' n c, List.dropLast_concat]

lemma sampleStage_true_length_le (maxRows : Nat) (l : List MergedRow) :
    (sampleStage true maxRows l).length ≤ maxRows := by
  unfold sampleStage
  by_cases h : maxRows < l.length
  · simp [h, sampleRows, List.length_take]
  · simp [h]
    omega

lemma pipelineTail_fast (maxRows : Nat) (ml : MLCollab M) (l : List MergedRow) :
    pipelineTail true maxRows ml l
      = ⟨scoreRows ml (sampleStage true maxRows l), false⟩ := by
  simp [pipelineTail]

lemma sampleStage_false (maxRows : Nat) (l : List MergedRow) :
    sampleStage false maxRows l = l := by
  simp [sampleStage]

lemma pipelineTail_false_cond (maxRows : Nat) (ml : MLCollab M)
    (merged : List MergedRow)
    (h30 : 30 ≤ countNotna (merged.map (fun r => r.ph))) :
    pipelineTail false maxRows ml merged
      = match ml.trainLstm (merged.map (fun r => r.ph)) with
        | .error _ => ⟨scoreRows ml merged, true⟩
        | .ok m =>
            match ml.forecastLstm m (merged.map (fun r => r.ph)) 7 with
            | .error _ => ⟨scoreRows ml merged, true⟩
            | .ok [] => ⟨scoreRows ml merged, true⟩
            | .ok (f :: _) => ⟨setLastForecast (scoreRows ml merged) f, true⟩ := by
  unfold pipelineTail
  rw [sampleStage_false]
  simp only [Bool.not_false, Bool.true_and, decide_eq_true h30, if_true]

lemma pipelineTail_false_lt (maxRows : Nat) (ml : MLCollab M)
    (merged : List MergedRow)
    (h30 : ¬ 30 ≤ countNotna (merged.map (fun r => r.ph))) :
    pipelineTail false maxRows ml merged = ⟨scoreRows ml merged, false⟩ := by
  unfold pipelineTail
  rw [sampleStage_false]
  simp only [Bool.not_false, Bool.true_and, decide_eq_false h30, Bool.false_eq_true,
    if_false]

lemma countNotna_le_length (l : List Cell) : countNotna l ≤ l.length :=
  List.length_filter_le _ l

/-! ## C2: the forecasting stage -/

/-- C2: forecasting is attempted iff fast mode is disabled and the non-null
pH count is at least 30; on success only the first of the 7 requested
forecast values is written, into the positionally last row, all other rows
keeping null; any training or forecasting error is caught and the stage
yields the scored table unchanged (the run reaches persistence). -/
theorem forecast_stage_spec {M : Type} (fastMode : Bool) (maxRows : Nat)
    (ml : MLCollab M) (merged : List MergedRow) :
    ((pipelineTail fastMode maxRows ml merged).forecastAttempted = true
      ↔ fastMode = false ∧ 30 ≤ countNotna (merged.map (fun r => r.ph)))
    ∧ (∀ (m : M) (f : ℚ) (fs : List ℚ),
        30 ≤ countNotna (merged.map (fun r => r.ph)) →
        ml.trainLstm (merged.map (fun r => r.ph)) = .ok m →
        ml.forecastLstm m (merged.map (fun r => r.ph)) 7 = .ok (f :: fs) →
        (pipelineTail false maxRows ml merged).rows.map ScoredRow.forecast_ph
          = List.replicate (merged.length - 1) none ++ [some f])
    ∧ (∀ em, ml.trainLstm (merged.map (fun r => r.ph)) = .error em →
        (pipelineTail false maxRows ml merged).rows.map ScoredRow.forecast_ph
          = List.replicate merged.length none
        ∧ (pipelineTail false maxRows ml merged).rows.length = merged.length)
    ∧ (∀ (m : M) em, ml.trainLstm (merged.map (fun r => r.ph)) = .ok m →
        ml.forecastLstm m (merged.map (fun r => r.ph)) 7 = .error em →
        (pipelineTail false maxRows ml merged).rows.map ScoredRow.forecast_ph
          = List.replicate merged.length none
        ∧ (pipelineTail false maxRows ml merged).rows.length = merged.length) := by
  refine ⟨?_, ?_, ?_, ?_⟩
  · cases fastMode
    · by_cases h30 : 30 ≤ countNotna (merged.map (fun r => r.ph))
      · constructor
        · intro _; exact ⟨rfl, h30⟩
        · intro _
          rw [pipelineTail_false_cond maxRows ml merged h30]
          rcases htr : ml.trainLstm (merged.map (fun r => r.ph)) with em | m <;> rw [htr]
          dsimp only
          rcases hfc : ml.forecastLstm m (merged.map (fun r => r.ph)) 7 with em | fsl <;>
            rw [hfc]
          rcases fsl with _ | ⟨f, fs⟩ <;> rfl
      · constructor
        · intro h
          rw [pipelineTail_false_lt maxRows ml merged h30] at h
          simp at h
        · rintro ⟨-, h⟩
          exact absurd h h30
    · rw [pipelineTail_fast]
      simp
  · intro m f fs h30 htrain hfc
    have hne : merged ≠ [] := by
      intro h
      rw [h] at h30
      simp [countNotna] at h30
    have hpos : 0 < merged.length := List.length_pos.mpr hne
    have hsne : scoreRows ml merged ≠ [] := by
      intro h
      have hl := scoreRows_length ml merged
      rw [h] at hl
      simp at hl
      omega
    have hrows : (pipelineTail false maxRows ml merged).rows
        = setLastForecast (scoreRows ml merged) f := by
      rw [pipelineTail_false_cond maxRows ml merged h30, htrain]
      dsimp only
      rw [hfc]
    rw [hrows, setLastForecast_map _ f hsne, scoreRows_forecast_none]
    obtain ⟨n, hn⟩ : ∃ n, merged.length = n + 1 :=
      ⟨merged.length - 1, by omega⟩
    rw [hn, dropLast_replicate]
    simp
  · intro em htrain
    have hrows : (pipelineTail false maxRows ml merged).rows = scoreRows ml merged := by
      by_cases h30 : 30 ≤ countNotna (merged.map (fun r => r.ph))
      · rw [pipelineTail_false_cond maxRows ml merged h30, htrain]
      · rw [pipelineTail_false_lt maxRows ml merged h30]
    rw [hrows, scoreRows_forecast_none, scoreRows_length]
    exact ⟨rfl, rfl⟩
  · intro m em htrain hfc
    have hrows : (pipelineTail false maxRows ml merged).rows = scoreRows ml merged := by
      by_cases h30 : 30 ≤ countNotna (merged.map (fun r => r.ph))
      · rw [pipelineTail_false_cond maxRows ml merged h30, htrain]
        dsimp only
        rw [hfc]
      · rw [pipelineTail_false_lt maxRows ml merged h30]
    rw [hrows, scoreRows_forecast_none, scoreRows_length]
    exact ⟨rfl, rfl⟩

/-- Witness for C2: 30 non-null pH rows, successful training and
forecasting; the first forecast value lands in the last row only. -/
theorem forecast_stage_spec_witness :
    (pipelineTail false 5000 mlW2 mergedW2).rows.map ScoredRow.forecast_ph
      = List.replicate (mergedW2.length - 1) none ++ [some 8.05] :=
  (forecast_stage_spec false 5000 mlW2 mergedW2).2.1 () 8.05
    [8.05, 8.05, 8.05, 8.05, 8.05, 8.05] (by decide) rfl rfl

/-! ## C3: the fast-mode sampling cap -/

/-- C3: with fast mode on, a merged table longer than the cap is
down-sampled to exactly 5000 rows, the selection is a subsequence of the
input and — the sampling seed being fixed — identical across any two runs on
an identical table (independently also of the ML collaborators); a table of
at most 5000 rows passes through unchanged. -/
theorem fast_sample_spec {M : Type} (ml ml2 : MLCollab M)
    (merged merged2 : List MergedRow) :
    (5000 < merged.length →
        (pipelineTail true 5000 ml merged).rows.length = 5000
        ∧ (pipelineTail true 5000 ml merged).rows.map ScoredRow.toMergedRow
            = sampleRows 5000 merged
        ∧ (sampleRows 5000 merged).Sublist merged)
    ∧ (merged = merged2 →
        (pipelineTail true 5000 ml merged).rows.map ScoredRow.toMergedRow
          = (pipelineTail true 5000 ml2 merged2).rows.map ScoredRow.toMergedRow)
    ∧ (merged.length ≤ 5000 →
        (pipelineTail true 5000 ml merged).rows.map ScoredRow.toMergedRow
          = merged) := by
  refine ⟨?_, ?_, ?_⟩
  · intro h
    have hss : sampleStage true 5000 merged = sampleRows 5000 merged := by
      simp [sampleStage, h]
    refine ⟨?_, ?_, ?_⟩
    · rw [pipelineTail_fast, scoreRows_length, hss]
      simp [sampleRows, List.length_take]
      omega
    · rw [pipelineTail_fast, scoreRows_toMerged, hss]
    · exact List.take_sublist _ _
  · intro h
    subst h
    rw [pipelineTail_fast, pipelineTail_fast, scoreRows_toMerged, scoreRows_toMerged]
  · intro h
    have hss : sampleStage true 5000 merged = merged := by
      simp [sampleStage]
      omega
    rw [pipelineTail_fast, scoreRows_toMerged, hss]

/-- Witness for C3: an 5001-row table is cut to exactly 5000 rows,
reproducibly. -/
theorem fast_sample_spec_witness :
    (pipelineTail true 5000 mlW2 mergedW3).rows.length = 5000
    ∧ (pipelineTail true 5000 mlW2 mergedW3).rows.map ScoredRow.toMergedRow
        = sampleRows 5000 mergedW3
    ∧ (sampleRows 5000 mergedW3).Sublist mergedW3 :=
  (fast_sample_spec mlW2 mlW2 mergedW3 mergedW3).1
    (by
      have h : mergedW3.length = 5001 := by
        unfold mergedW3
        exact List.length_replicate 5001 _
      omega)

/-! ## C10: fast mode is a hard-coded constant -/

/-- C10: `FAST_MODE` is the constant `True`, so every completed run of
`run_daily_pipeline` never attempts forecasting, leaves `forecast_ph` null
on every persisted row, and never hands more than `MAX_ROWS_FAST` rows to
the persistence stage — no runtime configuration can enable forecasting. -/
theorem fast_mode_lock_spec {A M : Type} (e : FetchEnv) (c : Collab A M) :
    FAST_MODE = true
    ∧ ∀ res, run_daily_pipeline e c = .ok res →
        res.forecastAttempted = false
        ∧ (∀ r ∈ res.rows, r.forecast_ph = none)
        ∧ res.rows.length ≤ MAX_ROWS_FAST := by
  refine ⟨rfl, ?_⟩
  intro res hres
  unfold run_daily_pipeline at hres
  rcases hc1 : fetch_noaa_crw e with msg | noaa <;> rw [hc1] at hres
  · exact Except.noConfusion hres
  rcases hc2 : fetch_noaa_ph e with msg | ph <;> rw [hc2] at hres
  · exact Except.noConfusion hres
  simp only [Except.ok.injEq] at hres
  have hres' : res = pipelineTail true MAX_ROWS_FAST c.ml
      (c.spatialMerge (c.integratePh (c.cleanNoaa noaa) ph)
        (c.cleanAllen (c.fetchAllen noaa))) := hres.symm
  subst hres'
  rw [pipelineTail_fast]
  refine ⟨rfl, ?_, ?_⟩
  · intro r hr
    have hmap := scoreRows_forecast_none c.ml
      (sampleStage true MAX_ROWS_FAST
        (c.spatialMerge (c.integratePh (c.cleanNoaa noaa) ph)
          (c.cleanAllen (c.fetchAllen noaa))))
    have : r.forecast_ph ∈ (scoreRows c.ml
        (sampleStage true MAX_ROWS_FAST
          (c.spatialMerge (c.integratePh (c.cleanNoaa noaa) ph)
            (c.cleanAllen (c.fetchAllen noaa))))).map ScoredRow.forecast_ph :=
      List.mem_map_of_mem _ hr
    rw [hmap] at this
    exact List.eq_of_mem_replicate this
  · rw [scoreRows_length]
    exact sampleStage_true_length_le _ _

/-- Witness for C10 on a concrete completed run. -/
theorem fast_mode_lock_spec_witness :
    resW10.forecastAttempted = false
    ∧ (∀ r ∈ resW10.rows, r.forecast_ph = none)
    ∧ resW10.rows.length ≤ MAX_ROWS_FAST :=
  (fast_mode_lock_spec envAllFail collabW).2 resW10 rfl

end OceanSite
